import Mathlib

/-!
Verification development for the configor configuration-resolution engine.

The Go source is shallowly embedded: reflection-driven traversal of a target
structure becomes explicit recursion over a `GoType` (the static field layout
with its tags) paired with a `Value` (the runtime value tree).  The external
collaborators — the YAML/TOML/JSON deserializers, `os.Getenv`, `os.Stat` and
`os.Args` — are injected capabilities (function parameters), exactly as the
design notes of the specification prescribe for them.
-/

namespace Configor

/-- Scalar kinds of the model.  Go has more scalar types; these three are
enough to exercise every branch of the resolution engine. -/
inductive PrimKind where
  | int
  | string
  | bool
deriving DecidableEq, Repr

/-- Scalar values, one constructor per `PrimKind`. -/
inductive PrimVal where
  | intV (n : Int)
  | strV (s : String)
  | boolV (b : Bool)
deriving DecidableEq, Repr

/-- Zero value of a scalar kind (Go's zero value for the type). -/
def zeroPrim : PrimKind → PrimVal
  | PrimKind.int => PrimVal.intV 0
  | PrimKind.string => PrimVal.strV ""
  | PrimKind.bool => PrimVal.boolV false

/-- Static description of one struct field: its name, the raw tag strings
(`json`, `env`, `default`, `required`, `anonymous`), the reflect-level
`Anonymous` (embedded) flag, and whether the field is exported
(`CanInterface` of the reflected field). -/
structure FieldMeta where
  name : String
  jsonTag : String
  envTag : String
  defaultTag : String
  requiredTag : String
  anonymous : Bool
  anonymousTag : String
  exported : Bool
deriving DecidableEq, Repr

/-- Static type of a target value: scalar, struct (field metadata plus field
types, in declaration order), pointer, or slice. -/
inductive GoType where
  | prim (k : PrimKind)
  | strct (fields : List (FieldMeta × GoType))
  | ptr (elem : GoType)
  | slice (elem : GoType)

/-- Runtime value tree.  A nil pointer is distinguished from a non-nil one;
struct values list their field values in declaration order. -/
inductive Value where
  | prim (p : PrimVal)
  | strct (vs : List Value)
  | ptrNil
  | ptr (v : Value)
  | slice (es : List Value)

mutual

/-- Zero value of a type, as produced by `reflect.Zero` / `reflect.New`. -/
def zeroValue : GoType → Value
  | GoType.prim k => Value.prim (zeroPrim k)
  | GoType.strct fs => Value.strct (zeroValues fs)
  | GoType.ptr _ => Value.ptrNil
  | GoType.slice _ => Value.slice []

/-- Zero values of a struct's fields. -/
def zeroValues : List (FieldMeta × GoType) → List Value
  | [] => []
  | (_, t) :: rest => zeroValue t :: zeroValues rest

end

mutual

/-- Model of `reflect.DeepEqual(field.Interface(), reflect.Zero(field.Type()).Interface())`:
the value equals the zero value of the given type.  A kind mismatch (which
cannot arise from well-typed Go) compares unequal. -/
def blankAt : GoType → Value → Bool
  | GoType.prim k, Value.prim p => p == zeroPrim k
  | GoType.strct fs, Value.strct vs => blankFields fs vs
  | GoType.ptr _, Value.ptrNil => true
  | GoType.slice _, Value.slice es => es.isEmpty
  | _, _ => false

/-- Pointwise blankness of a struct's field values. -/
def blankFields : List (FieldMeta × GoType) → List Value → Bool
  | [], [] => true
  | (_, t) :: rest, v :: vrest => blankAt t v && blankFields rest vrest
  | _, _ => false

end

/-- Model of `strings.ToUpper` restricted to ASCII, written over the raw
character list so that it evaluates inside the kernel. -/
def toUpperGo (s : String) : String :=
  String.mk (s.data.map Char.toUpper)

/-- Embedding of `getJsonTag` (utils.go): first comma-separated component of
the `json` tag, trimmed; empty or `-` yields no serialization name. -/
def getJsonTag (m : FieldMeta) : String :=
  let tag := m.jsonTag
  if tag.length > 0 ∧ tag ≠ "-" then
    let value := ((tag.splitOn ",").headD "").trim
    if value.length > 0 ∧ value ≠ "-" then value else ""
  else ""

/-- Embedding of `Configor.getEnvironmentVariables` (utils.go): the ordered
candidate environment-variable names for one field.  `gpfx` is the
`Configor.globalPrefix` captured at construction; `pfxs` the accumulated
prefixes of the walk. -/
def getEnvironmentVariables (gpfx : String) (m : FieldMeta) (pfxs : List String) : List String :=
  let envTagValue := m.envTag
  let jsonTagValue := getJsonTag m
  if envTagValue ≠ "" then
    [envTagValue] ++
      (if gpfx.length > 0 then
        [gpfx ++ "_" ++ envTagValue, toUpperGo gpfx ++ "_" ++ envTagValue]
      else [])
  else
    let result := pfxs.foldl (fun acc p =>
      let nm := p ++ "_" ++ m.name
      let acc := acc ++ [nm, toUpperGo nm]
      if jsonTagValue.length > 0 then
        let nm2 := p ++ "_" ++ jsonTagValue
        acc ++ [nm2, toUpperGo nm2]
      else acc) []
    if result.isEmpty then
      [m.name, toUpperGo m.name] ++
        (if jsonTagValue.length > 0 then [jsonTagValue, toUpperGo jsonTagValue] else [])
    else result

/-- Embedding of `getPrefixForStruct` (utils.go): the prefixes passed to the
recursive walk of a nested struct field. -/
def getPrefixForStruct (pfxs : List String) (m : FieldMeta) : List String :=
  if m.anonymous = true ∧ m.anonymousTag = "true" then pfxs
  else
    let result := pfxs.map (fun p => p ++ "_" ++ m.name)
    let jsonName := getJsonTag m
    let result :=
      if jsonName ≠ "" then result ++ pfxs.map (fun p => p ++ "_" ++ jsonName)
      else result
    if result.isEmpty then
      [m.name] ++ (if jsonName ≠ "" then [jsonName] else [])
    else result

/-- Injected capabilities: `getenv` models `os.Getenv` (empty string for an
unset variable); `yamlParse` models `yaml.Unmarshal` of a literal value into
a location of a given type (`none` is a decode error).  The specification
treats both as external black boxes. -/
structure OSEnv where
  getenv : String → String
  yamlParse : GoType → String → Option Value

/-- First candidate name whose environment variable is set and non-empty,
mirroring the `for _, env := range envNames` loop with its `break`. -/
def lookupEnv (getenv : String → String) : List String → Option String
  | [] => none
  | e :: rest => if getenv e ≠ "" then some (getenv e) else lookupEnv getenv rest

/-- Load-from-shell step of `processTags`: if some candidate is set and
non-empty, its string value is yaml-parsed into the field (an unmarshal
failure aborts the walk); otherwise the field is left unchanged. -/
def envStep (O : OSEnv) (envNames : List String) (t : GoType) (v : Value) : Except String Value :=
  match lookupEnv O.getenv envNames with
  | none => Except.ok v
  | some s =>
    match O.yamlParse t s with
    | some w => Except.ok w
    | none => Except.error "yaml: unmarshal error"

/-- Default/required step of `processTags`: only when the field is blank, a
non-empty `default` tag is yaml-parsed and assigned; otherwise
`required:"true"` aborts with an error naming the upper-cased last candidate
environment-variable name (the bare field name when none were generated). -/
def defaultStep (O : OSEnv) (m : FieldMeta) (envNames : List String) (t : GoType)
    (v : Value) : Except String Value :=
  if blankAt t v then
    if m.defaultTag ≠ "" then
      match O.yamlParse t m.defaultTag with
      | some w => Except.ok w
      | none => Except.error "yaml: unmarshal error"
    else if m.requiredTag = "true" then
      let nm :=
        match envNames.getLast? with
        | some l => toUpperGo l
        | none => m.name
      Except.error (nm ++ " is required, but blank")
    else Except.ok v
  else Except.ok v

/-- Guard of the slice-element recursion,
`reflect.Indirect(field.Index(i)).Kind() == reflect.Struct`: true for a
struct element, and for a non-nil pointer-to-struct element (a nil pointer
indirects to an invalid value, whose kind is not Struct). -/
def sliceElemIsStruct : GoType → Value → Bool
  | GoType.strct _, _ => true
  | GoType.ptr (GoType.strct _), Value.ptr _ => true
  | _, _ => false

mutual

/-- Embedding of `Configor.processTags` (utils.go): the recursive field walk.
The target must be a struct (reached through the pointer the caller passes),
otherwise the walk fails with the invalid-target error. -/
def processTags (O : OSEnv) (gpfx : String) (pfxs : List String) :
    GoType → Value → Except String Value
  | GoType.strct fs, Value.strct vs =>
    match processTagsFields O gpfx pfxs fs vs with
    | Except.ok vs' => Except.ok (Value.strct vs')
    | Except.error e => Except.error e
  | GoType.strct _, _ => Except.error "model: value does not match struct type"
  | _, _ => Except.error "invalid config, should be struct"
termination_by t _ => (sizeOf t, 1, 0)

/-- One pass of the `for i := 0; i < configType.NumField(); i++` loop over a
struct's fields, in declaration order; the first error aborts the walk. -/
def processTagsFields (O : OSEnv) (gpfx : String) (pfxs : List String) :
    List (FieldMeta × GoType) → List Value → Except String (List Value)
  | [], [] => Except.ok []
  | (m, t) :: rest, v :: vrest =>
    match processTagsField O gpfx pfxs m t v with
    | Except.error e => Except.error e
    | Except.ok v' =>
      match processTagsFields O gpfx pfxs rest vrest with
      | Except.error e => Except.error e
      | Except.ok r => Except.ok (v' :: r)
  | _, _ => Except.error "model: field values do not match struct type"
termination_by fs _ => (sizeOf fs, 0, 0)

/-- Per-field body of the walk.  A nil pointer field is materialized as a
fresh zero value of the pointee type (`reflect.New(field.Type().Elem()).Elem()`)
which is processed detached — errors propagate, but the parent keeps the nil
pointer.  A non-addressable/non-interfaceable (unexported) field is skipped
entirely; the freshly materialized value always passes that check. -/
def processTagsField (O : OSEnv) (gpfx : String) (pfxs : List String)
    (m : FieldMeta) : GoType → Value → Except String Value
  | GoType.ptr e, Value.ptrNil =>
    match processTagsFieldBody O gpfx pfxs m e (zeroValue e) with
    | Except.error err => Except.error err
    | Except.ok _ => Except.ok Value.ptrNil
  | t, v =>
    if m.exported then processTagsFieldBody O gpfx pfxs m t v else Except.ok v
termination_by t _ => (sizeOf t, 3, 0)

/-- Environment lookup, default/required check, then recursion into the
(dereferenced) field, with the prefixes extended by `getPrefixForStruct`. -/
def processTagsFieldBody (O : OSEnv) (gpfx : String) (pfxs : List String)
    (m : FieldMeta) (t : GoType) (v : Value) : Except String Value :=
  match envStep O (getEnvironmentVariables gpfx m pfxs) t v with
  | Except.error e => Except.error e
  | Except.ok v1 =>
    match defaultStep O m (getEnvironmentVariables gpfx m pfxs) t v1 with
    | Except.error e => Except.error e
    | Except.ok v2 => recurseInto O gpfx (getPrefixForStruct pfxs m) t v2
termination_by (sizeOf t, 2, 0)

/-- Dereference loop plus the two recursion sites of the field body: unwrap
pointers (a nil pointer dereferences to an invalid value and stops the
walk), recurse into a struct, and recurse into the struct elements of a
slice. -/
def recurseInto (O : OSEnv) (gpfx : String) (pfxs2 : List String) :
    GoType → Value → Except String Value
  | GoType.ptr e, Value.ptr w =>
    match recurseInto O gpfx pfxs2 e w with
    | Except.ok w' => Except.ok (Value.ptr w')
    | Except.error err => Except.error err
  | GoType.strct fs, Value.strct vs =>
    match processTagsFields O gpfx pfxs2 fs vs with
    | Except.ok vs' => Except.ok (Value.strct vs')
    | Except.error err => Except.error err
  | GoType.slice e, Value.slice es =>
    match processTagsElems O gpfx pfxs2 e 0 es with
    | Except.ok es' => Except.ok (Value.slice es')
    | Except.error err => Except.error err
  | _, w => Except.ok w
termination_by t _ => (sizeOf t, 1, 1)

/-- Element loop of the slice recursion: element `i` whose indirect kind is
Struct is walked with the struct-extended prefixes plus the decimal index
appended as one more prefix (`append(getPrefixForStruct(...), fmt.Sprint(i))`). -/
def processTagsElems (O : OSEnv) (gpfx : String) (pfxs2 : List String)
    (e : GoType) (i : Nat) : List Value → Except String (List Value)
  | [] => Except.ok []
  | w :: rest =>
    match (if sliceElemIsStruct e w then processTags O gpfx (pfxs2 ++ [toString i]) e w
           else Except.ok w) with
    | Except.error err => Except.error err
    | Except.ok w' =>
      match processTagsElems O gpfx pfxs2 e (i + 1) rest with
      | Except.error err => Except.error err
      | Except.ok r => Except.ok (w' :: r)
termination_by es => (sizeOf e, 2, sizeOf es)

end

/-- Tail of the reversed character scan behind `pathExtGo`: the accumulated
suffix is returned once a dot is met; a slash or the start of the string
means no extension. -/
def pathExtGoAux : List Char → List Char → String
  | [], _ => ""
  | c :: rest, acc =>
    if c = '/' then ""
    else if c = '.' then String.mk (c :: acc)
    else pathExtGoAux rest (c :: acc)

/-- Model of Go's `path.Ext`: the suffix beginning at the final dot in the
final slash-separated element of the path, empty if there is no dot. -/
def pathExtGo (p : String) : String :=
  pathExtGoAux p.toList.reverse []

/-- Embedding of `getConfigurationFileWithENVPrefix` (utils.go), with the
filesystem injected as the `regular` predicate (`os.Stat` succeeding with a
regular-file mode). -/
def getConfigurationFileWithENVPrefix (regular : String → Bool) (file env : String) :
    Except String String :=
  let extname := pathExtGo file
  let envFile :=
    if extname = "" then file ++ "." ++ env
    else (file.dropRight extname.length) ++ "." ++ env ++ extname
  if regular envFile then Except.ok envFile
  else Except.error ("failed to find file " ++ file)

/-- Loop body of `getConfigurationFiles` for one candidate `file`: append
the base file when it is a regular file, append the environment-suffixed
sibling when it exists, and fall back to the example-suffixed sibling only
when neither was found. -/
def getConfigurationFilesStep (regular : String → Bool) (env : String)
    (results : List String) (file : String) : List String :=
  let foundBase := regular file
  let r1 := if foundBase then results ++ [file] else results
  let (foundFile, r2) :=
    match getConfigurationFileWithENVPrefix regular file env with
    | Except.ok envFile => (true, r1 ++ [envFile])
    | Except.error _ => (foundBase, r1)
  if !foundFile then
    match getConfigurationFileWithENVPrefix regular file "example" with
    | Except.ok exampleFile => r2 ++ [exampleFile]
    | Except.error _ => r2
  else r2

/-- Embedding of `Configor.getConfigurationFiles` (utils.go): candidates are
scanned in reverse caller order; the base file and the environment-suffixed
sibling are emitted when they exist, and only when neither exists is the
example-suffixed sibling tried.  Diagnostic printing is dropped. -/
def getConfigurationFiles (regular : String → Bool) (env : String)
    (files : List String) : List String :=
  files.reverse.foldl (getConfigurationFilesStep regular env) []

/-- Result of the external `toml.Decode` black box: either an error, or
success together with the undecoded (unmatched) keys of the document. -/
inductive TomlResult where
  | decoded (undecoded : List String)
  | failed (msg : String)

/-- Error of a yaml decode, separating `*yaml.TypeError` (matched by a type
assertion in `processFile`) from every other error. -/
inductive YamlError where
  | typeError (msg : String)
  | otherError (msg : String)

/-- Errors surfaced by the decoder adapter: the structured
`UnmatchedTomlKeysError`, yaml type errors, and plain errors carrying the
`Error()` string (json errors are plain errors, recognized by substring). -/
inductive CfgError where
  | unmatchedToml (keys : List String)
  | yamlTypeError (msg : String)
  | plain (msg : String)
deriving DecidableEq, Repr

/-- Injected format decoders: `tomlDecode` models `toml.Decode`;
`jsonUnmarshal` models `unmarshalJSON` (a repository file outside the given
sources — modelled from the spec: strict mode rejects unknown fields with an
error whose text contains the phrase matched by `processFile`), returning
`none` on success; `yamlUnmarshal` models `yaml.UnmarshalStrict` /
`yaml.Unmarshal` picked by the strict flag. -/
structure Decoders where
  tomlDecode : String → TomlResult
  jsonUnmarshal : Bool → String → Option String
  yamlUnmarshal : Bool → String → Option YamlError

/-- Embedding of `unmarshalToml` (utils.go): a clean decode that left keys
undecoded fails with `UnmatchedTomlKeysError` exactly when
`errorOnUnmatchedKeys` is set; a decode error is returned as is. -/
def unmarshalToml (D : Decoders) (data : String) (errorOnUnmatchedKeys : Bool) :
    Option CfgError :=
  match D.tomlDecode data with
  | TomlResult.decoded undecoded =>
    if undecoded.length > 0 ∧ errorOnUnmatchedKeys = true then
      some (CfgError.unmatchedToml undecoded)
    else none
  | TomlResult.failed msg => some (CfgError.plain msg)

/-- Substring test standing in for `strings.Contains` (the pattern is always
non-empty where this model uses it). -/
def containsSubstring (s pat : String) : Bool :=
  (s.splitOn pat).length != 1

/-- Yaml decode of `processFile`, strict or not, with the `*yaml.TypeError`
type assertion preserved in the error constructor. -/
def yamlDecodeStep (D : Decoders) (errorOnUnmatchedKeys : Bool) (data : String) :
    Option CfgError :=
  match D.yamlUnmarshal errorOnUnmatchedKeys data with
  | none => none
  | some (YamlError.typeError msg) => some (CfgError.yamlTypeError msg)
  | some (YamlError.otherError msg) => some (CfgError.plain msg)

/-- Embedding of `processFile` (utils.go): extension dispatch to a single
format, and otherwise the TOML → JSON → YAML cascade; an
`UnmatchedTomlKeysError`, a json unknown-field error and a yaml type error
each propagate instead of falling through, and a generic failure is returned
when every format fails.  Reading the file is injected as `readFile`. -/
def processFile (D : Decoders) (readFile : String → Except String String)
    (file : String) (errorOnUnmatchedKeys : Bool) : Option CfgError :=
  match readFile file with
  | Except.error e => some (CfgError.plain e)
  | Except.ok data =>
    if file.endsWith ".yaml" || file.endsWith ".yml" then
      yamlDecodeStep D errorOnUnmatchedKeys data
    else if file.endsWith ".toml" then
      unmarshalToml D data errorOnUnmatchedKeys
    else if file.endsWith ".json" then
      match D.jsonUnmarshal errorOnUnmatchedKeys data with
      | none => none
      | some e => some (CfgError.plain e)
    else
      match unmarshalToml D data errorOnUnmatchedKeys with
      | none => none
      | some (CfgError.unmatchedToml keys) => some (CfgError.unmatchedToml keys)
      | some _ =>
        match D.jsonUnmarshal errorOnUnmatchedKeys data with
        | none => none
        | some jsonErr =>
          if containsSubstring jsonErr "json: unknown field" then
            some (CfgError.plain jsonErr)
          else
            match yamlDecodeStep D errorOnUnmatchedKeys data with
            | none => none
            | some (CfgError.yamlTypeError msg) => some (CfgError.yamlTypeError msg)
            | some _ => some (CfgError.plain "failed to decode config")

/-- Model of `testRegexp = regexp.MustCompile("_test|(\\.test$)")` applied by
`MatchString`: the argument contains `_test`, or ends with `.test`. -/
def testRegexpMatches (s : String) : Bool :=
  containsSubstring s "_test" || s.endsWith ".test"

/-- Embedding of `Configor.GetEnvironment` (part of the session facade):
explicit `Environment` wins; else a set, non-empty `CONFIGOR_ENV`; else
`"test"` when the first program argument matches the test pattern; else
`"development"`. -/
def GetEnvironment (getenv : String → String) (args0 : String)
    (environment : String) : String :=
  if environment = "" then
    if getenv "CONFIGOR_ENV" ≠ "" then getenv "CONFIGOR_ENV"
    else if testRegexpMatches args0 then "test"
    else "development"
  else environment

/-!
Specification-side definitions.  Each follows the wording of a spec claim
(not the source); theorems below compare them with the embedded code.
-/

/-- Resolution order of the environment name as the spec states it: explicit
Session value, else `CONFIGOR_ENV`, else test-pattern inference, else
`"development"`. -/
def specResolveEnvironmentName (explicitEnv cfgEnv : String) (isTestProcess : Bool) : String :=
  if explicitEnv ≠ "" then explicitEnv
  else if cfgEnv ≠ "" then cfgEnv
  else if isTestProcess then "test"
  else "development"

/-- Environment-suffixed sibling of a candidate file as the spec words it:
`name.ENV.ext`, or `name.ENV` when there is no extension. -/
def envSibling (file env : String) : String :=
  if pathExtGo file = "" then file ++ "." ++ env
  else (file.dropRight (pathExtGo file).length) ++ "." ++ env ++ pathExtGo file

/-- Files emitted for one candidate, per the claim: the base file if it is a
regular file, then the environment-suffixed sibling if it is one; only when
neither exists, the example-suffixed sibling if it exists. -/
def specResolveOne (regular : String → Bool) (env file : String) : List String :=
  let base := if regular file then [file] else []
  let envF := if regular (envSibling file env) then [envSibling file env] else []
  if base.isEmpty ∧ envF.isEmpty then
    if regular (envSibling file "example") then [envSibling file "example"] else []
  else base ++ envF

/-- Full file resolution per the claim: candidates in reverse caller order,
each contributing its emitted files. -/
def specResolveFiles (regular : String → Bool) (env : String)
    (files : List String) : List String :=
  files.reverse.flatMap (specResolveOne regular env)

/-- Decoder dispatch per the claim: extension dispatch to YAML/TOML/JSON,
otherwise the TOML → JSON → YAML trial order with unmatched-key, json
unknown-field and yaml type errors propagating and a generic failure when
every format fails. -/
def specDecode (D : Decoders) (strict : Bool) (file data : String) : Option CfgError :=
  if file.endsWith ".yaml" || file.endsWith ".yml" then
    yamlDecodeStep D strict data
  else if file.endsWith ".toml" then
    unmarshalToml D data strict
  else if file.endsWith ".json" then
    match D.jsonUnmarshal strict data with
    | none => none
    | some e => some (CfgError.plain e)
  else
    match unmarshalToml D data strict with
    | none => none
    | some (CfgError.unmatchedToml keys) => some (CfgError.unmatchedToml keys)
    | some _ =>
      match D.jsonUnmarshal strict data with
      | none => none
      | some jsonErr =>
        if containsSubstring jsonErr "json: unknown field" then
          some (CfgError.plain jsonErr)
        else
          match yamlDecodeStep D strict data with
          | none => none
          | some (CfgError.yamlTypeError msg) => some (CfgError.yamlTypeError msg)
          | some _ => some (CfgError.plain "failed to decode config")

/-- Candidate names of an `env`-tagged field exactly as the claim words
them: the literal tag value and — under a non-empty global prefix — the
prefixed form and the upper-cased prefixed form. -/
def claimedEnvTagNames (gpfx envTag : String) : List String :=
  [envTag] ++
    (if gpfx ≠ "" then [gpfx ++ "_" ++ envTag, toUpperGo (gpfx ++ "_" ++ envTag)] else [])

/-- Candidate environment-variable names as the amended claim words them:
for an `env` tag, the literal value and (under a non-empty global prefix)
the prefixed form and the form whose prefix alone is upper-cased; otherwise
the per-prefix name/serialization pairs with whole-name upper-case variants,
falling back to the bare names when no prefixes are accumulated. -/
def specCandidateNames (gpfx : String) (m : FieldMeta) (pfxs : List String) : List String :=
  if m.envTag ≠ "" then
    [m.envTag] ++
      (if gpfx ≠ "" then [gpfx ++ "_" ++ m.envTag, toUpperGo gpfx ++ "_" ++ m.envTag] else [])
  else
    let j := getJsonTag m
    if pfxs.isEmpty then
      [m.name, toUpperGo m.name] ++ (if j ≠ "" then [j, toUpperGo j] else [])
    else
      pfxs.flatMap (fun p =>
        [p ++ "_" ++ m.name, toUpperGo (p ++ "_" ++ m.name)] ++
          (if j ≠ "" then [p ++ "_" ++ j, toUpperGo (p ++ "_" ++ j)] else []))

/-- Recursion prefixes exactly as the claim words them: each accumulated
prefix extended with the field name, then with the serialization name; an
anonymous-tagged embedded field passes the prefixes through unchanged.  (No
clause for an empty prefix list.) -/
def claimedRecursePrefixes (pfxs : List String) (m : FieldMeta) : List String :=
  if m.anonymous = true ∧ m.anonymousTag = "true" then pfxs
  else
    pfxs.map (fun p => p ++ "_" ++ m.name) ++
      (if getJsonTag m ≠ "" then pfxs.map (fun p => p ++ "_" ++ getJsonTag m) else [])

/-- Recursion prefixes as the amended claim words them: as above, but when
no prefixes are accumulated the field name itself (and the serialization
name) become the prefixes. -/
def specRecursePrefixes (pfxs : List String) (m : FieldMeta) : List String :=
  if m.anonymous = true ∧ m.anonymousTag = "true" then pfxs
  else if pfxs.isEmpty then
    [m.name] ++ (if getJsonTag m ≠ "" then [getJsonTag m] else [])
  else
    pfxs.map (fun p => p ++ "_" ++ m.name) ++
      (if getJsonTag m ≠ "" then pfxs.map (fun p => p ++ "_" ++ getJsonTag m) else [])

/-- Scalar type discriminator. -/
def isPrimType : GoType → Bool
  | GoType.prim _ => true
  | _ => false

mutual

/-- Claim C9's stated invariant as a checker over the result of the walk:
every exported field reachable through the walk's recursion sites that
carries `required:"true"` is non-blank. -/
def requiredNonBlankAt : GoType → Value → Bool
  | GoType.ptr e, Value.ptr w => requiredNonBlankAt e w
  | GoType.strct fs, Value.strct vs => requiredNonBlankFields fs vs
  | GoType.slice e, Value.slice es => requiredNonBlankElems e es
  | _, _ => true
termination_by t _ => (sizeOf t, 1, 0)

/-- Field list of the claimed invariant. -/
def requiredNonBlankFields : List (FieldMeta × GoType) → List Value → Bool
  | [], [] => true
  | (m, t) :: rest, v :: vrest =>
    (!(m.exported && m.requiredTag == "true") || !(blankAt t v)) &&
      (if m.exported then requiredNonBlankAt t v else true) &&
      requiredNonBlankFields rest vrest
  | _, _ => true
termination_by fs _ => (sizeOf fs, 0, 0)

/-- Slice elements of the claimed invariant. -/
def requiredNonBlankElems (e : GoType) : List Value → Bool
  | [] => true
  | w :: rest =>
    (if sliceElemIsStruct e w then requiredNonBlankAt e w else true) &&
      requiredNonBlankElems e rest
termination_by es => (sizeOf e, 2, sizeOf es)

end

/-- Per-field condition of the amended invariant: an exported scalar field
with `required:"true"` and no `default` tag is non-blank. -/
def scalarReqCond (m : FieldMeta) (t : GoType) (v : Value) : Bool :=
  !(m.exported && m.requiredTag == "true" && m.defaultTag == "" && isPrimType t) ||
    !(blankAt t v)

mutual

/-- Amended invariant of claim C9, mirroring the recursion sites of the
walk: every exported scalar field with `required:"true"` and no `default`
tag, reachable through structs, non-nil pointers and struct slice elements,
is non-blank. -/
def reqDeepAt : GoType → Value → Bool
  | GoType.ptr e, Value.ptr w => reqDeepAt e w
  | GoType.strct fs, Value.strct vs => reqDeepFields fs vs
  | GoType.slice e, Value.slice es => reqDeepElems e es
  | _, _ => true
termination_by t _ => (sizeOf t, 1, 0)

/-- One field of the amended invariant: its own scalar condition, and the
inner invariant when the field is exported (an unexported field is not
walked). -/
def reqDeepField (m : FieldMeta) (t : GoType) (v : Value) : Bool :=
  scalarReqCond m t v && (if m.exported then reqDeepAt t v else true)
termination_by (sizeOf t, 2, 0)

/-- Field list of the amended invariant. -/
def reqDeepFields : List (FieldMeta × GoType) → List Value → Bool
  | [], [] => true
  | (m, t) :: rest, v :: vrest => reqDeepField m t v && reqDeepFields rest vrest
  | _, _ => true
termination_by fs _ => (sizeOf fs, 0, 0)

/-- Slice elements of the amended invariant. -/
def reqDeepElems (e : GoType) : List Value → Bool
  | [] => true
  | w :: rest =>
    (if sliceElemIsStruct e w then reqDeepAt e w else true) && reqDeepElems e rest
termination_by es => (sizeOf e, 2, sizeOf es)

end

/-!
Concrete fixtures used by witnesses and counterexamples.
-/

/-- Concrete scalar parser standing in for the yaml capability in witnesses:
a handful of integer literals, every string literal, and the two booleans. -/
def toyParse : GoType → String → Option Value
  | GoType.prim PrimKind.int, s =>
    if s = "0" then some (Value.prim (PrimVal.intV 0))
    else if s = "3" then some (Value.prim (PrimVal.intV 3))
    else if s = "7" then some (Value.prim (PrimVal.intV 7))
    else none
  | GoType.prim PrimKind.string, s => some (Value.prim (PrimVal.strV s))
  | GoType.prim PrimKind.bool, s =>
    if s = "true" then some (Value.prim (PrimVal.boolV true))
    else if s = "false" then some (Value.prim (PrimVal.boolV false))
    else none
  | _, _ => none

/-- Field metadata with every tag empty, under a given name. -/
def plainMeta (nm : String) : FieldMeta :=
  { name := nm, jsonTag := "", envTag := "", defaultTag := "",
    requiredTag := "", anonymous := false, anonymousTag := "", exported := true }

/-- Field carrying `env:"db"`, used against claim C1's upper-casing. -/
def mEnvTag : FieldMeta := { plainMeta "F" with envTag := "db" }

/-- Field carrying `required:"true" default:"0"`, the C9 counterexample. -/
def mPort : FieldMeta := { plainMeta "Port" with defaultTag := "0", requiredTag := "true" }

/-- Field carrying `required:"true"` and no default. -/
def mRequired : FieldMeta := { plainMeta "f" with requiredTag := "true" }

/-- One-field struct around `mPort`. -/
def tC9A : GoType := GoType.strct [(mPort, GoType.prim PrimKind.int)]

/-- Shell with no variables set. -/
def OC9A : OSEnv := { getenv := fun _ => "", yamlParse := toyParse }

/-- Inner scalar field of the nested C9 counterexample. -/
def mInnerI : FieldMeta := plainMeta "I"

/-- Required struct field of the nested C9 counterexample. -/
def mOuterS : FieldMeta := { plainMeta "S" with requiredTag := "true" }

/-- Nested struct type: a required struct `S` holding one int field `I`. -/
def tC9B : GoType :=
  GoType.strct [(mOuterS, GoType.strct [(mInnerI, GoType.prim PrimKind.int)])]

/-- File-populated value for `tC9B`: `S.I = 5`. -/
def vC9B : Value := Value.strct [Value.strct [Value.prim (PrimVal.intV 5)]]

/-- Shell setting only `S_I=0`, re-zeroing the inner field of `S`. -/
def OC9B : OSEnv :=
  { getenv := fun s => if s = "S_I" then "0" else "", yamlParse := toyParse }

/-- Decoders whose TOML decode always reports the undeclared key `Test`. -/
def tomlFixtureD : Decoders :=
  { tomlDecode := fun _ => TomlResult.decoded ["Test"],
    jsonUnmarshal := fun _ _ => none,
    yamlUnmarshal := fun _ _ => none }

/-- Decoders on which every format fails without a propagating error. -/
def cascadeFixtureD : Decoders :=
  { tomlDecode := fun _ => TomlResult.failed "toml: parse error",
    jsonUnmarshal := fun _ _ => some "invalid character",
    yamlUnmarshal := fun _ _ => some (YamlError.otherError "yaml: parse error") }

/-- Read capability serving one extension-less file named `cfg`. -/
def readFixture : String → Except String String :=
  fun f => if f = "cfg" then Except.ok "raw-data" else Except.error "open: no such file"

/-- Shell setting only `F=7`, used by the environment-precedence witness. -/
def OC2 : OSEnv :=
  { getenv := fun s => if s = "F" then "7" else "", yamlParse := toyParse }

/-- Shell setting only `F=0`, whose parsed value is the zero value. -/
def OC2b : OSEnv :=
  { getenv := fun s => if s = "F" then "0" else "", yamlParse := toyParse }

/-- Field carrying `default:"3"` and no other tags. -/
def mDefault3 : FieldMeta := { plainMeta "F" with defaultTag := "3" }

/-- Scalar parser extended with one struct document: the string `five`
decodes into a one-int-field struct as `{5}`. -/
def toyParseC2 : GoType → String → Option Value
  | GoType.strct [(_, GoType.prim PrimKind.int)], "five" =>
    some (Value.strct [Value.prim (PrimVal.intV 5)])
  | t, s => toyParse t s

/-- Outer struct with one struct-typed field `G` holding one int field `I`. -/
def tC2c : GoType :=
  GoType.strct [(plainMeta "G", GoType.strct [(mInnerI, GoType.prim PrimKind.int)])]

/-- File-populated value for `tC2c`: `G.I = 7`. -/
def vC2c : Value := Value.strct [Value.strct [Value.prim (PrimVal.intV 7)]]

/-- Shell setting `G=five` (a whole-struct document) and `G_I=0`. -/
def OC2c : OSEnv :=
  { getenv := fun s => if s = "G" then "five" else if s = "G_I" then "0" else "",
    yamlParse := toyParseC2 }

/-- Shell setting only `P=x`, used by the nil-pointer witness. -/
def OC10 : OSEnv :=
  { getenv := fun s => if s = "P" then "x" else "", yamlParse := toyParse }

/-!
General lemmas shared by several claim proofs.
-/

/-- A string has positive length exactly when it is not the empty string. -/
theorem string_length_pos (s : String) : 0 < s.length ↔ s ≠ "" := by
  cases s with
  | mk data =>
    constructor
    · intro h heq
      rw [heq] at h
      simp [String.length] at h
    · intro h
      rcases data with _ | ⟨c, cs⟩
      · exact absurd rfl h
      · simp [String.length]

/-- The first match of the candidate scan skips every unset candidate and
returns the value of the first set, non-empty one. -/
theorem lookupEnv_first_match (getenv : String → String) (pre post : List String)
    (c : String) (hpre : ∀ x ∈ pre, getenv x = "") (hc : getenv c ≠ "") :
    lookupEnv getenv (pre ++ c :: post) = some (getenv c) := by
  induction pre with
  | nil => simp [lookupEnv, hc]
  | cons x xs ih =>
    have hx : getenv x = "" := hpre x (by simp)
    simp only [List.cons_append, lookupEnv, hx]
    simp only [ne_eq, not_true_eq_false, if_false]
    exact ih (fun y hy => hpre y (by simp [hy]))

/-- Dereferencing recursion leaves a scalar field unchanged. -/
theorem recurseInto_prim (O : OSEnv) (gpfx : String) (p2 : List String)
    (k : PrimKind) (v : Value) :
    recurseInto O gpfx p2 (GoType.prim k) v = Except.ok v := by
  cases v <;> simp [recurseInto]

/-!
Claim theorems.
-/

/-- C8: `GetEnvironment` resolves the environment name with the exact
precedence: explicit Session value, else a set and non-empty `CONFIGOR_ENV`,
else `"test"` when the process identity matches the test pattern, else
`"development"`. -/
theorem c8_get_environment (getenv : String → String) (args0 environment : String) :
    GetEnvironment getenv args0 environment =
      specResolveEnvironmentName environment (getenv "CONFIGOR_ENV")
        (testRegexpMatches args0) := by
  unfold GetEnvironment specResolveEnvironmentName
  by_cases h : environment = "" <;> simp [h]

/-- C7: a TOML decode that succeeds but leaves undeclared keys undecoded
fails with `UnmatchedTomlKeysError` listing exactly those keys when the
strict flag is on, and succeeds silently when it is off. -/
theorem c7_unmatched_toml_keys (D : Decoders) (data : String) (keys : List String)
    (hdec : D.tomlDecode data = TomlResult.decoded keys) (hne : keys ≠ []) :
    unmarshalToml D data true = some (CfgError.unmatchedToml keys) ∧
      unmarshalToml D data false = none := by
  have hlen : keys.length > 0 := List.length_pos.mpr hne
  unfold unmarshalToml
  rw [hdec]
  simp [hlen]

/-- Witness for C7 at the decoder fixture reporting the key `Test`. -/
theorem c7_unmatched_toml_keys_witness :
    unmarshalToml tomlFixtureD "Test = 1" true =
        some (CfgError.unmatchedToml ["Test"]) ∧
      unmarshalToml tomlFixtureD "Test = 1" false = none :=
  c7_unmatched_toml_keys tomlFixtureD "Test = 1" ["Test"] rfl (by decide)

/-- C6: decoding dispatches on the file extension, and otherwise tries TOML,
then JSON, then YAML, accepting the first clean decode, propagating TOML
unmatched-key errors, JSON unknown-field errors and YAML type errors, and
reporting the generic decode failure when every format fails. -/
theorem c6_decode_dispatch (D : Decoders) (readFile : String → Except String String)
    (file data : String) (strict : Bool) (hread : readFile file = Except.ok data) :
    processFile D readFile file strict = specDecode D strict file data := by
  unfold processFile specDecode
  rw [hread]

/-- Witness for C6 at an extension-less file on which every format fails. -/
theorem c6_decode_dispatch_witness :
    processFile cascadeFixtureD readFixture "cfg" true =
      specDecode cascadeFixtureD true "cfg" "raw-data" :=
  c6_decode_dispatch cascadeFixtureD readFixture "cfg" "raw-data" true (by rfl)

/-- The environment-suffixed lookup succeeds exactly on an existing sibling
file, and the sibling it builds is the one the specification describes. -/
theorem getConfigurationFileWithENVPrefix_eq (regular : String → Bool) (file env : String) :
    getConfigurationFileWithENVPrefix regular file env =
      if regular (envSibling file env) then Except.ok (envSibling file env)
      else Except.error ("failed to find file " ++ file) := by
  unfold getConfigurationFileWithENVPrefix envSibling
  rfl

/-- One candidate of the resolver loop contributes exactly the files the
specification lists for it, appended to the accumulated results. -/
theorem getConfigurationFilesStep_eq (regular : String → Bool) (env : String)
    (acc : List String) (file : String) :
    getConfigurationFilesStep regular env acc file =
      acc ++ specResolveOne regular env file := by
  unfold getConfigurationFilesStep specResolveOne
  rw [getConfigurationFileWithENVPrefix_eq, getConfigurationFileWithENVPrefix_eq]
  by_cases hb : regular file <;>
    by_cases he : regular (envSibling file env) <;>
      by_cases hx : regular (envSibling file "example") <;>
        simp [hb, he, hx]

/-- The resolver fold accumulates the per-candidate contributions in order. -/
theorem getConfigurationFiles_fold (regular : String → Bool) (env : String) :
    ∀ (l acc : List String),
      l.foldl (getConfigurationFilesStep regular env) acc =
        acc ++ l.flatMap (specResolveOne regular env) := by
  intro l
  induction l with
  | nil => intro acc; simp
  | cons f rest ih =>
    intro acc
    simp [List.foldl_cons, getConfigurationFilesStep_eq, ih, List.append_assoc]

/-- C5: the file resolver iterates the candidates in reverse caller order,
emits the base file then the environment-suffixed sibling when they exist as
regular files, and falls back to the example-suffixed sibling only when
neither exists. -/
theorem c5_file_resolution (regular : String → Bool) (env : String) (files : List String) :
    getConfigurationFiles regular env files = specResolveFiles regular env files := by
  unfold getConfigurationFiles specResolveFiles
  rw [getConfigurationFiles_fold]
  simp

/-- The candidate-name fold of `getEnvironmentVariables` appends, for each
prefix in order, the field-name pair then the serialization-name pair. -/
theorem getEnvironmentVariables_fold (nm j : String) :
    ∀ (pfxs init : List String),
      pfxs.foldl (fun acc p =>
        let n1 := p ++ "_" ++ nm
        let acc := acc ++ [n1, toUpperGo n1]
        if j.length > 0 then
          let n2 := p ++ "_" ++ j
          acc ++ [n2, toUpperGo n2]
        else acc) init =
      init ++ pfxs.flatMap (fun p =>
        [p ++ "_" ++ nm, toUpperGo (p ++ "_" ++ nm)] ++
          (if j ≠ "" then [p ++ "_" ++ j, toUpperGo (p ++ "_" ++ j)] else [])) := by
  intro pfxs
  induction pfxs with
  | nil => intro init; simp
  | cons p rest ih =>
    intro init
    rw [List.foldl_cons, ih]
    by_cases hj : j = ""
    · simp [hj, List.append_assoc]
    · have hjl : 0 < j.length := (string_length_pos j).mpr hj
      simp [hjl, hj, List.append_assoc]

/-- The code's candidate list agrees with the amended description for every
field, global prefix and accumulated prefix list. -/
theorem getEnvironmentVariables_eq_spec (gpfx : String) (m : FieldMeta)
    (pfxs : List String) :
    getEnvironmentVariables gpfx m pfxs = specCandidateNames gpfx m pfxs := by
  unfold getEnvironmentVariables specCandidateNames
  by_cases henv : m.envTag = ""
  · simp only [henv, ne_eq, not_true_eq_false, if_false]
    rw [getEnvironmentVariables_fold m.name (getJsonTag m) pfxs []]
    cases pfxs with
    | nil => by_cases hj : getJsonTag m = "" <;> simp [hj, string_length_pos]
    | cons p rest =>
      by_cases hj : getJsonTag m = "" <;>
        simp [hj, List.flatMap_cons, string_length_pos]
  · have hg : gpfx.length > 0 ↔ gpfx ≠ "" := string_length_pos gpfx
    by_cases hgp : gpfx = "" <;> simp [henv, hgp, hg]

/-- Counterexample to C1 as stated: under global prefix `App`, a field
tagged `env:"db"` yields the candidate `APP_db` (only the prefix is
upper-cased), not the upper-cased prefixed form `APP_DB` the claim
describes. -/
theorem c1_counterexample :
    getEnvironmentVariables "App" mEnvTag [] ≠ claimedEnvTagNames "App" "db" := by
  decide

/-- C1 (amended): the candidate list is the literal `env` tag value followed
— under a non-empty global prefix — by the prefixed form and the form with
the prefix alone upper-cased; without an `env` tag, the per-prefix
name/serialization pairs with whole-name upper-cased variants, falling back
to the bare names when no prefixes are accumulated; the first candidate
whose variable is set and non-empty is yaml-parsed and assigned, and
scanning stops. -/
theorem c1_candidate_names (gpfx : String) (m : FieldMeta) (pfxs : List String)
    (O : OSEnv) (pre post : List String) (c : String) (t : GoType) (v : Value)
    (hpre : ∀ x ∈ pre, O.getenv x = "") (hc : O.getenv c ≠ "") :
    getEnvironmentVariables gpfx m pfxs = specCandidateNames gpfx m pfxs ∧
      lookupEnv O.getenv (pre ++ c :: post) = some (O.getenv c) ∧
      envStep O (pre ++ c :: post) t v =
        (match O.yamlParse t (O.getenv c) with
         | some w => Except.ok w
         | none => Except.error "yaml: unmarshal error") := by
  have hlook := lookupEnv_first_match O.getenv pre post c hpre hc
  refine ⟨getEnvironmentVariables_eq_spec gpfx m pfxs, hlook, ?_⟩
  unfold envStep
  rw [hlook]

/-- Witness for C1 (amended) with prefix `App`, candidates `["db"]`, and the
variable `db=x` set. -/
theorem c1_candidate_names_witness :
    getEnvironmentVariables "App" mEnvTag [] = specCandidateNames "App" mEnvTag [] ∧
      lookupEnv OC2.getenv ([] ++ "F" :: []) = some (OC2.getenv "F") ∧
      envStep OC2 ([] ++ "F" :: []) (GoType.prim PrimKind.int) (Value.prim (PrimVal.intV 1)) =
        (match OC2.yamlParse (GoType.prim PrimKind.int) (OC2.getenv "F") with
         | some w => Except.ok w
         | none => Except.error "yaml: unmarshal error") :=
  c1_candidate_names "App" mEnvTag [] OC2 [] [] "F" (GoType.prim PrimKind.int)
    (Value.prim (PrimVal.intV 1)) (by intro x hx; cases hx) (by decide)

/-- C3: the default/required step runs only when the field is blank after
the environment step — a non-blank field passes through unchanged; a blank
field with a `default` tag receives its parsed value; a blank required field
without a default aborts the walk with an error naming the upper-cased last
candidate name (the bare field name when no candidates exist), and that
error propagates out of the per-field body. -/
theorem c3_default_required (O : OSEnv) (m : FieldMeta) (envNames : List String)
    (t : GoType) (v w : Value) (l : String) (gpfx : String) (pfxs : List String)
    (v1 : Value) (msg : String) :
    (blankAt t v = false → defaultStep O m envNames t v = Except.ok v) ∧
      (blankAt t v = true → m.defaultTag ≠ "" → O.yamlParse t m.defaultTag = some w →
        defaultStep O m envNames t v = Except.ok w) ∧
      (blankAt t v = true → m.defaultTag = "" → m.requiredTag = "true" →
        envNames.getLast? = some l →
        defaultStep O m envNames t v =
          Except.error (toUpperGo l ++ " is required, but blank")) ∧
      (blankAt t v = true → m.defaultTag = "" → m.requiredTag = "true" →
        envNames = [] →
        defaultStep O m envNames t v =
          Except.error (m.name ++ " is required, but blank")) ∧
      (envStep O (getEnvironmentVariables gpfx m pfxs) t v = Except.ok v1 →
        defaultStep O m (getEnvironmentVariables gpfx m pfxs) t v1 = Except.error msg →
        processTagsFieldBody O gpfx pfxs m t v = Except.error msg) := by
  refine ⟨?_, ?_, ?_, ?_, ?_⟩
  · intro hb
    simp [defaultStep, hb]
  · intro hb hd hp
    simp [defaultStep, hb, hd, hp]
  · intro hb hd hr hl
    simp [defaultStep, hb, hd, hr, hl]
  · intro hb hd hr he
    simp [defaultStep, hb, hd, hr, he]
  · intro he hd
    simp [processTagsFieldBody, he, hd]

/-- Witness for C3: a blank required int field with candidates `["a_f"]`
fails naming `A_F`, and a non-blank field skips the step. -/
theorem c3_default_required_witness :
    (blankAt (GoType.prim PrimKind.int) (Value.prim (PrimVal.intV 0)) = true →
      (mRequired).defaultTag = "" → (mRequired).requiredTag = "true" →
      (["a_f"] : List String).getLast? = some "a_f" →
      defaultStep OC9A mRequired ["a_f"] (GoType.prim PrimKind.int)
          (Value.prim (PrimVal.intV 0)) =
        Except.error (toUpperGo "a_f" ++ " is required, but blank")) ∧
      defaultStep OC9A mRequired ["a_f"] (GoType.prim PrimKind.int)
          (Value.prim (PrimVal.intV 0)) =
        Except.error ("A_F is required, but blank") := by
  have h := c3_default_required OC9A mRequired ["a_f"] (GoType.prim PrimKind.int)
    (Value.prim (PrimVal.intV 0)) (Value.prim (PrimVal.intV 0)) "a_f" "" []
    (Value.prim (PrimVal.intV 0)) ""
  refine ⟨h.2.2.1, ?_⟩
  have hres := h.2.2.1 (by simp [blankAt, zeroPrim]) rfl rfl rfl
  simpa using hres

/-- Counterexample to C2 as stated, at two concrete runs.  First, a scalar
field with file value `5`, matching environment variable `F=0` (parsing to
the zero value) and `default:"3"` resolves to the default `3`, not to the
environment-derived `0`, although the walk succeeds.  Second, a struct
field with file value `{7}` and matching environment variable `G=five`
(parsing to `{5}`) ends at `{0}` because the recursion into the structure
rewrites the freshly assigned value from `G_I=0` — so a structured field
does not in general hold the environment-derived value either. -/
theorem c2_counterexample :
    (processTagsField OC2b "" [] mDefault3 (GoType.prim PrimKind.int)
        (Value.prim (PrimVal.intV 5)) = Except.ok (Value.prim (PrimVal.intV 3)) ∧
      OC2b.yamlParse (GoType.prim PrimKind.int) (OC2b.getenv "F") =
        some (Value.prim (PrimVal.intV 0)) ∧
      processTagsField OC2b "" [] mDefault3 (GoType.prim PrimKind.int)
        (Value.prim (PrimVal.intV 5)) ≠ Except.ok (Value.prim (PrimVal.intV 0))) ∧
      (processTags OC2c "" [] tC2c vC2c =
          Except.ok (Value.strct [Value.strct [Value.prim (PrimVal.intV 0)]]) ∧
        OC2c.yamlParse (GoType.strct [(mInnerI, GoType.prim PrimKind.int)])
            (OC2c.getenv "G") = some (Value.strct [Value.prim (PrimVal.intV 5)]) ∧
        (Value.strct [Value.prim (PrimVal.intV 0)] : Value) ≠
          Value.strct [Value.prim (PrimVal.intV 5)]) := by
  refine ⟨⟨?_, by simp [OC2b, toyParse], ?_⟩, ?_, by simp [OC2c, toyParseC2, mInnerI, plainMeta], by simp⟩
  · simp [processTagsField, processTagsFieldBody, envStep, defaultStep, lookupEnv,
      getEnvironmentVariables, getJsonTag, blankAt, zeroPrim, mDefault3, plainMeta,
      OC2b, toyParse, recurseInto_prim]
  · have hrun : processTagsField OC2b "" [] mDefault3 (GoType.prim PrimKind.int)
        (Value.prim (PrimVal.intV 5)) = Except.ok (Value.prim (PrimVal.intV 3)) := by
      simp [processTagsField, processTagsFieldBody, envStep, defaultStep, lookupEnv,
        getEnvironmentVariables, getJsonTag, blankAt, zeroPrim, mDefault3, plainMeta,
        OC2b, toyParse, recurseInto_prim]
    rw [hrun]
    simp
  · simp [processTags, processTagsFields, processTagsField, processTagsFieldBody,
      envStep, defaultStep, recurseInto, processTagsElems, lookupEnv,
      getEnvironmentVariables, getPrefixForStruct, getJsonTag, blankAt, blankFields,
      zeroPrim, OC2c, tC2c, vC2c, mInnerI, plainMeta, toyParseC2, toyParse]

/-- C2 (amended): the environment lookup assigns unconditionally — for every
field type and any two prior file-decoded contents the assigned result is
the same parsed environment value; for a scalar field the walk then returns
that value whenever it is non-blank, and also when it is blank but no
default or required tag interferes; only a blank parsed value combined with
a default tag ends up replaced by the default, and a structured field's
assigned value may be further rewritten by the recursion into it. -/
theorem c2_env_overrides_file (O : OSEnv) (gpfx : String) (pfxs : List String)
    (m : FieldMeta) (k : PrimKind) (s : String) (w v₀ v₁ : Value)
    (hex : m.exported = true)
    (hlook : lookupEnv O.getenv (getEnvironmentVariables gpfx m pfxs) = some s)
    (hparse : O.yamlParse (GoType.prim k) s = some w) :
    (∀ (t' : GoType) (w' va vb : Value), O.yamlParse t' s = some w' →
      envStep O (getEnvironmentVariables gpfx m pfxs) t' va = Except.ok w' ∧
        envStep O (getEnvironmentVariables gpfx m pfxs) t' vb = Except.ok w') ∧
      (blankAt (GoType.prim k) w = false →
        processTagsField O gpfx pfxs m (GoType.prim k) v₀ = Except.ok w ∧
          processTagsField O gpfx pfxs m (GoType.prim k) v₁ = Except.ok w) ∧
      (blankAt (GoType.prim k) w = true → m.defaultTag = "" → m.requiredTag ≠ "true" →
        processTagsField O gpfx pfxs m (GoType.prim k) v₀ = Except.ok w ∧
          processTagsField O gpfx pfxs m (GoType.prim k) v₁ = Except.ok w) := by
  refine ⟨?_, ?_, ?_⟩
  · intro t' w' va vb hparse'
    constructor <;> simp [envStep, hlook, hparse']
  · intro hnb
    have hall : ∀ v : Value,
        processTagsField O gpfx pfxs m (GoType.prim k) v = Except.ok w := by
      intro v
      have hbody : processTagsFieldBody O gpfx pfxs m (GoType.prim k) v =
          Except.ok w := by
        simp [processTagsFieldBody, envStep, hlook, hparse, defaultStep, hnb,
          recurseInto_prim]
      cases v <;> simp [processTagsField, hex, hbody]
    exact ⟨hall v₀, hall v₁⟩
  · intro hb hdef hreq
    have hall : ∀ v : Value,
        processTagsField O gpfx pfxs m (GoType.prim k) v = Except.ok w := by
      intro v
      have hbody : processTagsFieldBody O gpfx pfxs m (GoType.prim k) v =
          Except.ok w := by
        simp [processTagsFieldBody, envStep, hlook, hparse, defaultStep, hb, hdef,
          hreq, recurseInto_prim]
      cases v <;> simp [processTagsField, hex, hbody]
    exact ⟨hall v₀, hall v₁⟩

/-- Witness for C2 (amended): with `F=7` set, the field resolves to `7` from
two different prior values `1` and `2`. -/
theorem c2_env_overrides_file_witness :
    processTagsField OC2 "" [] (plainMeta "F") (GoType.prim PrimKind.int)
        (Value.prim (PrimVal.intV 1)) = Except.ok (Value.prim (PrimVal.intV 7)) ∧
      processTagsField OC2 "" [] (plainMeta "F") (GoType.prim PrimKind.int)
        (Value.prim (PrimVal.intV 2)) = Except.ok (Value.prim (PrimVal.intV 7)) :=
  (c2_env_overrides_file OC2 "" [] (plainMeta "F") PrimKind.int "7"
    (Value.prim (PrimVal.intV 7)) (Value.prim (PrimVal.intV 1))
    (Value.prim (PrimVal.intV 2)) rfl (by simp [lookupEnv, getEnvironmentVariables,
      getJsonTag, plainMeta, OC2]) (by simp [OC2, toyParse])).2.1
    (by simp [blankAt, zeroPrim])

/-- C10: a field that is a nil pointer when the walk reaches it is processed
on a detached zero instance; whatever the environment and default steps
resolve for it is discarded, and on success the parent still holds nil. -/
theorem c10_nil_pointer_detached (O : OSEnv) (gpfx : String) (pfxs : List String)
    (m : FieldMeta) (e : GoType) (w : Value)
    (h : processTagsField O gpfx pfxs m (GoType.ptr e) Value.ptrNil = Except.ok w) :
    w = Value.ptrNil := by
  rw [show processTagsField O gpfx pfxs m (GoType.ptr e) Value.ptrNil =
      (match processTagsFieldBody O gpfx pfxs m e (zeroValue e) with
       | Except.error err => Except.error err
       | Except.ok _ => Except.ok Value.ptrNil) from by simp [processTagsField]] at h
  cases hb : processTagsFieldBody O gpfx pfxs m e (zeroValue e) with
  | ok u => rw [hb] at h; exact (Except.ok.injEq .. ▸ h).symm ▸ rfl
  | error err => rw [hb] at h; cases h

/-- Witness for C10: with `P=x` set, the detached pointee resolves to `"x"`,
yet the field comes back nil. -/
theorem c10_nil_pointer_detached_witness :
    (processTagsField OC10 "" [] (plainMeta "P") (GoType.ptr (GoType.prim PrimKind.string))
        Value.ptrNil = Except.ok Value.ptrNil) ∧ Value.ptrNil = Value.ptrNil := by
  have h : processTagsField OC10 "" [] (plainMeta "P")
      (GoType.ptr (GoType.prim PrimKind.string)) Value.ptrNil =
      Except.ok Value.ptrNil := by
    simp [processTagsField, processTagsFieldBody, envStep, defaultStep, lookupEnv,
      getEnvironmentVariables, getJsonTag, plainMeta, OC10, toyParse, zeroValue,
      zeroPrim, blankAt, recurseInto_prim]
  exact ⟨h, c10_nil_pointer_detached OC10 "" [] (plainMeta "P")
    (GoType.prim PrimKind.string) Value.ptrNil h⟩

/-- Counterexample to C4 as stated: with no accumulated prefixes, the code
passes the bare field name as the new prefix, while the claim's extension
rule yields no prefixes at all. -/
theorem c4_counterexample :
    getPrefixForStruct [] (plainMeta "F") ≠ claimedRecursePrefixes [] (plainMeta "F") := by
  decide

/-- C4 (amended): recursion into a nested struct extends each accumulated
prefix with the field name, then with the serialization name — unless the
field is an anonymous-tagged embedded struct, whose prefixes pass through
unchanged — and with no accumulated prefixes the bare field name (and
serialization name) are used; a slice element whose indirect kind is Struct
is walked with those prefixes plus the decimal element index appended, and
the per-field body hands exactly `getPrefixForStruct` to its recursion. -/
theorem c4_recursion_prefixes (pfxs : List String) (m : FieldMeta) (O : OSEnv)
    (gpfx : String) (p2 : List String) (e : GoType) (i : Nat) (w : Value)
    (rest : List Value) (t : GoType) (v : Value)
    (hguard : sliceElemIsStruct e w = true) :
    getPrefixForStruct pfxs m = specRecursePrefixes pfxs m ∧
      processTagsElems O gpfx p2 e i (w :: rest) =
        (match processTags O gpfx (p2 ++ [toString i]) e w with
         | Except.error err => Except.error err
         | Except.ok w' =>
           match processTagsElems O gpfx p2 e (i + 1) rest with
           | Except.error err => Except.error err
           | Except.ok r => Except.ok (w' :: r)) ∧
      processTagsFieldBody O gpfx pfxs m t v =
        (match envStep O (getEnvironmentVariables gpfx m pfxs) t v with
         | Except.error err => Except.error err
         | Except.ok v1 =>
           match defaultStep O m (getEnvironmentVariables gpfx m pfxs) t v1 with
           | Except.error err => Except.error err
           | Except.ok v2 => recurseInto O gpfx (getPrefixForStruct pfxs m) t v2) := by
  refine ⟨?_, ?_, ?_⟩
  · unfold getPrefixForStruct specRecursePrefixes
    by_cases ha : m.anonymous = true ∧ m.anonymousTag = "true"
    · simp [ha]
    · cases pfxs with
      | nil => by_cases hj : getJsonTag m = "" <;> simp [ha, hj]
      | cons p ps => by_cases hj : getJsonTag m = "" <;> simp [ha, hj]
  · simp [processTagsElems, hguard]
  · simp [processTagsFieldBody]

/-- Witness for C4 (amended) at a struct slice element with index `0`. -/
theorem c4_recursion_prefixes_witness :
    getPrefixForStruct ["S"] (plainMeta "F") = specRecursePrefixes ["S"] (plainMeta "F") ∧
      processTagsElems OC9A "" ["S_F"] tC9A 0 [Value.strct [Value.prim (PrimVal.intV 1)]] =
        (match processTags OC9A "" (["S_F"] ++ [toString 0]) tC9A
            (Value.strct [Value.prim (PrimVal.intV 1)]) with
         | Except.error err => Except.error err
         | Except.ok w' =>
           match processTagsElems OC9A "" ["S_F"] tC9A (0 + 1) [] with
           | Except.error err => Except.error err
           | Except.ok r => Except.ok (w' :: r)) ∧
      processTagsFieldBody OC9A "" ["S"] (plainMeta "F") (GoType.prim PrimKind.int)
          (Value.prim (PrimVal.intV 1)) =
        (match envStep OC9A (getEnvironmentVariables "" (plainMeta "F") ["S"])
            (GoType.prim PrimKind.int) (Value.prim (PrimVal.intV 1)) with
         | Except.error err => Except.error err
         | Except.ok v1 =>
           match defaultStep OC9A (plainMeta "F")
               (getEnvironmentVariables "" (plainMeta "F") ["S"])
               (GoType.prim PrimKind.int) v1 with
           | Except.error err => Except.error err
           | Except.ok v2 =>
             recurseInto OC9A "" (getPrefixForStruct ["S"] (plainMeta "F"))
               (GoType.prim PrimKind.int) v2) :=
  c4_recursion_prefixes ["S"] (plainMeta "F") OC9A "" ["S_F"] tC9A 0
    (Value.strct [Value.prim (PrimVal.intV 1)]) [] (GoType.prim PrimKind.int)
    (Value.prim (PrimVal.intV 1)) (by simp [tC9A, sliceElemIsStruct])

/-- Counterexample to C9 as stated, at two concrete runs: a required int
field with `default:"0"` resolves to the zero value with the walk
succeeding, and a required struct field that was non-blank at its check is
re-zeroed by an inner environment assignment with the walk succeeding. -/
theorem c9_counterexample :
    (processTags OC9A "" [] tC9A (zeroValue tC9A) =
        Except.ok (Value.strct [Value.prim (PrimVal.intV 0)]) ∧
      requiredNonBlankAt tC9A (Value.strct [Value.prim (PrimVal.intV 0)]) = false) ∧
      (processTags OC9B "" [] tC9B vC9B =
          Except.ok (Value.strct [Value.strct [Value.prim (PrimVal.intV 0)]]) ∧
        requiredNonBlankAt tC9B
          (Value.strct [Value.strct [Value.prim (PrimVal.intV 0)]]) = false) := by
  refine ⟨⟨?_, ?_⟩, ?_, ?_⟩ <;>
    simp [processTags, processTagsFields, processTagsField, processTagsFieldBody,
      envStep, defaultStep, recurseInto, processTagsElems, lookupEnv,
      getEnvironmentVariables, getPrefixForStruct, getJsonTag, blankAt, blankFields,
      zeroValue, zeroValues, zeroPrim, requiredNonBlankAt, requiredNonBlankFields,
      requiredNonBlankElems, OC9A, OC9B, tC9A, tC9B, vC9B, mPort, mOuterS, mInnerI,
      plainMeta, toyParse, sliceElemIsStruct,
      show toUpperGo "S" = "S" from by decide,
      show toUpperGo "Port" = "PORT" from by decide]

/-- The per-field dispatch for a field that is not a nil pointer: process
the field in place when it is exported, skip it otherwise. -/
theorem processTagsField_not_nilptr (O : OSEnv) (gpfx : String) (p : List String)
    (m : FieldMeta) (t : GoType) (v : Value)
    (hne : ∀ e, t = GoType.ptr e → v = Value.ptrNil → False) :
    processTagsField O gpfx p m t v =
      if m.exported then processTagsFieldBody O gpfx p m t v else Except.ok v := by
  cases t <;> cases v <;>
    first
    | exact (hne _ rfl rfl).elim
    | simp [processTagsField]

/-- Dereferencing recursion is the identity outside its three recursion
patterns. -/
theorem recurseInto_other (O : OSEnv) (gpfx : String) (p : List String)
    (t : GoType) (w : Value)
    (h1 : ∀ e w1, t = GoType.ptr e → w = Value.ptr w1 → False)
    (h2 : ∀ fs vs, t = GoType.strct fs → w = Value.strct vs → False)
    (h3 : ∀ e es, t = GoType.slice e → w = Value.slice es → False) :
    recurseInto O gpfx p t w = Except.ok w := by
  cases t <;> cases w <;>
    first
    | exact (h1 _ _ rfl rfl).elim
    | exact (h2 _ _ rfl rfl).elim
    | exact (h3 _ _ rfl rfl).elim
    | simp [recurseInto]

/-- The amended invariant is vacuous outside the three recursion patterns. -/
theorem reqDeepAt_other (t : GoType) (w : Value)
    (h1 : ∀ e w1, t = GoType.ptr e → w = Value.ptr w1 → False)
    (h2 : ∀ fs vs, t = GoType.strct fs → w = Value.strct vs → False)
    (h3 : ∀ e es, t = GoType.slice e → w = Value.slice es → False) :
    reqDeepAt t w = true := by
  cases t <;> cases w <;>
    first
    | exact (h1 _ _ rfl rfl).elim
    | exact (h2 _ _ rfl rfl).elim
    | exact (h3 _ _ rfl rfl).elim
    | simp [reqDeepAt]

/-- A successful default/required step on a required field without a default
tag leaves a non-blank value. -/
theorem defaultStep_required_nonblank (O : OSEnv) (m : FieldMeta)
    (envNames : List String) (t : GoType) (v w : Value)
    (h : defaultStep O m envNames t v = Except.ok w)
    (hreq : m.requiredTag = "true") (hdef : m.defaultTag = "") :
    blankAt t w = false := by
  unfold defaultStep at h
  by_cases hb : blankAt t v = true
  · rw [if_pos hb] at h
    simp [hdef, hreq] at h
  · have hb' : blankAt t v = false := by
      cases hval : blankAt t v
      · rfl
      · exact absurd hval hb
    rw [if_neg hb] at h
    cases h
    exact hb'

/-- C9 (amended): after a successful walk, every exported scalar field with
`required:"true"` and no `default` tag, reachable through the walk's
recursion sites (structs, non-nil pointers, struct slice elements), holds a
non-zero value.  (A required field with a default tag may hold zero, and a
non-scalar required field may be re-zeroed after its own check — see the
counterexample.) -/
theorem c9_required_fields (O : OSEnv) (gpfx : String) (pfxs : List String)
    (t : GoType) (v v' : Value)
    (h : processTags O gpfx pfxs t v = Except.ok v') :
    reqDeepAt t v' = true := by
  have main : ∀ (p : List String) (a : GoType) (b : Value),
      ∀ w, processTags O gpfx p a b = Except.ok w → reqDeepAt a w = true := by
    refine processTags.induct O gpfx
      (fun p a b => ∀ w, processTags O gpfx p a b = Except.ok w → reqDeepAt a w = true)
      (fun p fs vs => ∀ ws, processTagsFields O gpfx p fs vs = Except.ok ws →
        reqDeepFields fs ws = true)
      (fun p m a b => ∀ w, processTagsField O gpfx p m a b = Except.ok w →
        reqDeepField m a w = true)
      (fun p m a b => ∀ w, processTagsFieldBody O gpfx p m a b = Except.ok w →
        (scalarReqCond m a w && reqDeepAt a w) = true)
      (fun p a b => ∀ w, recurseInto O gpfx p a b = Except.ok w →
        reqDeepAt a w = true)
      (fun p e i es => ∀ ws, processTagsElems O gpfx p e i es = Except.ok ws →
        reqDeepElems e ws = true)
      ?_ ?_ ?_ ?_ ?_ ?_ ?_ ?_ ?_ ?_ ?_ ?_ ?_ ?_ ?_ ?_ ?_ ?_ ?_ ?_ ?_ ?_ ?_ ?_ ?_ ?_ ?_
    -- entry, fields decoded cleanly
    · intro p fs vs vs' hfs ih w h'
      have heq : processTags O gpfx p (GoType.strct fs) (Value.strct vs) =
          Except.ok (Value.strct vs') := by simp [processTags, hfs]
      rw [heq] at h'
      injection h' with h''
      subst h''
      simp only [reqDeepAt]
      exact ih vs' hfs
    -- entry, fields failed
    · intro p fs vs e herr ih w h'
      simp [processTags, herr] at h'
    -- entry, struct type with non-struct value
    · intro p fields x hx w h'
      cases x <;>
        first
        | exact (hx _ rfl).elim
        | simp [processTags] at h'
    -- entry, non-struct target
    · intro p a b hne1 hne2 w h'
      cases a <;>
        first
        | exact (hne2 _ rfl).elim
        | (cases b <;> simp [processTags] at h')
    -- field list: both empty
    · intro p ws h'
      simp [processTagsFields] at h'
      subst h'
      simp [reqDeepFields]
    -- field list: head field fails
    · intro p m a rest b vrest e herr ih ws h'
      simp [processTagsFields, herr] at h'
    -- field list: head ok, tail fails
    · intro p m a rest b vrest w1 hok e herr ih3 ih2 ws h'
      simp [processTagsFields, hok, herr] at h'
    -- field list: head ok, tail ok
    · intro p m a rest b vrest w1 hok r hrest ih3 ih2 ws h'
      have heq : processTagsFields O gpfx p ((m, a) :: rest) (b :: vrest) =
          Except.ok (w1 :: r) := by simp [processTagsFields, hok, hrest]
      rw [heq] at h'
      injection h' with h''
      subst h''
      simp only [reqDeepFields, Bool.and_eq_true]
      exact ⟨ih3 w1 hok, ih2 r hrest⟩
    -- field list: length mismatch
    · intro p x x1 hnil hcons ws h'
      rcases x with _ | ⟨⟨m, a⟩, rest⟩ <;> rcases x1 with _ | ⟨b, vrest⟩ <;>
        first
        | exact (hnil rfl rfl).elim
        | exact (hcons _ _ _ _ _ rfl rfl).elim
        | simp [processTagsFields] at h'
    -- nil pointer field, detached body fails
    · intro p m e e1 herr ih w h'
      simp [processTagsField, herr] at h'
    -- nil pointer field, detached body succeeds: parent keeps nil
    · intro p m e v1 hok ih w h'
      have heq : processTagsField O gpfx p m (GoType.ptr e) Value.ptrNil =
          Except.ok Value.ptrNil := by simp [processTagsField, hok]
      rw [heq] at h'
      injection h' with h''
      subst h''
      simp [reqDeepField, scalarReqCond, isPrimType, reqDeepAt]
    -- exported field processed in place
    · intro p m a b hne hex ih w h'
      rw [processTagsField_not_nilptr O gpfx p m a b hne, if_pos hex] at h'
      have hres := ih w h'
      rw [Bool.and_eq_true] at hres
      simp [reqDeepField, hex, hres.1, hres.2]
    -- unexported field skipped
    · intro p m a b hne hnex w h'
      rw [processTagsField_not_nilptr O gpfx p m a b hne, if_neg hnex] at h'
      injection h' with h''
      subst h''
      have hexf : m.exported = false := by
        cases hval : m.exported
        · rfl
        · exact absurd hval hnex
      simp [reqDeepField, scalarReqCond, hexf]
    -- body: environment step fails
    · intro p m a b e henv w h'
      simp [processTagsFieldBody, henv] at h'
    -- body: default step fails
    · intro p m a b v1 henv e hdef w h'
      simp [processTagsFieldBody, henv, hdef] at h'
    -- body: both steps succeed, recursion decides
    · intro p m a b v1 henv v2 hdef ih5 w h'
      have hrec : recurseInto O gpfx (getPrefixForStruct p m) a v2 = Except.ok w := by
        have heq : processTagsFieldBody O gpfx p m a b =
            recurseInto O gpfx (getPrefixForStruct p m) a v2 := by
          simp [processTagsFieldBody, henv, hdef]
        rw [heq] at h'
        exact h'
      have hdeep := ih5 w hrec
      rw [Bool.and_eq_true]
      refine ⟨?_, hdeep⟩
      unfold scalarReqCond
      cases hflag : (m.exported && m.requiredTag == "true" && m.defaultTag == "" &&
          isPrimType a)
      · simp
      · rw [Bool.and_eq_true, Bool.and_eq_true, Bool.and_eq_true] at hflag
        obtain ⟨⟨⟨_, hreqb⟩, hdefb⟩, hprim⟩ := hflag
        have hreq : m.requiredTag = "true" := by simpa using hreqb
        have hdeftag : m.defaultTag = "" := by simpa using hdefb
        cases a with
        | prim k =>
          rw [recurseInto_prim] at hrec
          injection hrec with hrec'
          subst hrec'
          have hnb := defaultStep_required_nonblank O m
            (getEnvironmentVariables gpfx m p) (GoType.prim k) v1 v2 hdef hreq hdeftag
          simp [hnb]
        | strct fs => simp [isPrimType] at hprim
        | ptr e => simp [isPrimType] at hprim
        | slice e => simp [isPrimType] at hprim
    -- recursion: pointer unwrapping succeeds
    · intro p2 e b w2 hrec ih w h'
      have heq : recurseInto O gpfx p2 (GoType.ptr e) (Value.ptr b) =
          Except.ok (Value.ptr w2) := by simp [recurseInto, hrec]
      rw [heq] at h'
      injection h' with h''
      subst h''
      simp only [reqDeepAt]
      exact ih w2 hrec
    -- recursion: pointer unwrapping fails
    · intro p2 e b err hrec ih w h'
      simp [recurseInto, hrec] at h'
    -- recursion: nested struct succeeds
    · intro p2 fs vs vs' hfs ih w h'
      have heq : recurseInto O gpfx p2 (GoType.strct fs) (Value.strct vs) =
          Except.ok (Value.strct vs') := by simp [recurseInto, hfs]
      rw [heq] at h'
      injection h' with h''
      subst h''
      simp only [reqDeepAt]
      exact ih vs' hfs
    -- recursion: nested struct fails
    · intro p2 fs vs e herr ih w h'
      simp [recurseInto, herr] at h'
    -- recursion: slice elements succeed
    · intro p2 e es vs' hels ih w h'
      have heq : recurseInto O gpfx p2 (GoType.slice e) (Value.slice es) =
          Except.ok (Value.slice vs') := by simp [recurseInto, hels]
      rw [heq] at h'
      injection h' with h''
      subst h''
      simp only [reqDeepAt]
      exact ih vs' hels
    -- recursion: slice elements fail
    · intro p2 e es e1 herr ih w h'
      simp [recurseInto, herr] at h'
    -- recursion: scalar or mismatched shapes pass through
    · intro p2 a b h1 h2 h3 w h'
      rw [recurseInto_other O gpfx p2 a b h1 h2 h3] at h'
      injection h' with h''
      subst h''
      exact reqDeepAt_other a b h1 h2 h3
    -- elements: none left
    · intro p2 e i ws h'
      simp [processTagsElems] at h'
      subst h'
      simp [reqDeepElems]
    -- elements: head fails
    · intro p2 e i b rest e1 hif ih1 ws h'
      by_cases hg : sliceElemIsStruct e b = true
      · rw [dif_pos hg] at hif
        simp [processTagsElems, hg, hif] at h'
      · rw [dif_neg hg] at hif
        cases hif
    -- elements: head ok, tail fails
    · intro p2 e i b rest v1 hif e1 hrest ih1 ih6 ws h'
      by_cases hg : sliceElemIsStruct e b = true
      · rw [dif_pos hg] at hif
        simp [processTagsElems, hg, hif, hrest] at h'
      · rw [dif_neg hg] at hif
        injection hif with hif'
        subst hif'
        simp [processTagsElems, hg, hrest] at h'
    -- elements: head ok, tail ok
    · intro p2 e i b rest v1 hif r hrest ih1 ih6 ws h'
      by_cases hg : sliceElemIsStruct e b = true
      · rw [dif_pos hg] at hif
        have heq : processTagsElems O gpfx p2 e i (b :: rest) =
            Except.ok (v1 :: r) := by simp [processTagsElems, hg, hif, hrest]
        rw [heq] at h'
        injection h' with h''
        subst h''
        simp only [reqDeepElems, Bool.and_eq_true]
        refine ⟨?_, ih6 r hrest⟩
        by_cases hg2 : sliceElemIsStruct e v1 = true
        · simp [hg2, ih1 v1 hif]
        · simp [hg2]
      · rw [dif_neg hg] at hif
        injection hif with hif'
        subst hif'
        have heq : processTagsElems O gpfx p2 e i (b :: rest) =
            Except.ok (b :: r) := by simp [processTagsElems, hg, hrest]
        rw [heq] at h'
        injection h' with h''
        subst h''
        simp only [reqDeepElems, Bool.and_eq_true]
        refine ⟨?_, ih6 r hrest⟩
        simp [hg]
  exact main pfxs t v v' h

/-- Witness for C9 (amended) at the nested-struct run of the
counterexample. -/
theorem c9_required_fields_witness :
    reqDeepAt tC9B (Value.strct [Value.strct [Value.prim (PrimVal.intV 0)]]) = true :=
  c9_required_fields OC9B "" [] tC9B vC9B
    (Value.strct [Value.strct [Value.prim (PrimVal.intV 0)]])
    (by simp [processTags, processTagsFields, processTagsField, processTagsFieldBody,
      envStep, defaultStep, recurseInto, processTagsElems, lookupEnv,
      getEnvironmentVariables, getPrefixForStruct, getJsonTag, blankAt, blankFields,
      zeroValue, zeroValues, zeroPrim, OC9B, tC9B, vC9B, mOuterS, mInnerI,
      plainMeta, toyParse, sliceElemIsStruct,
      show toUpperGo "S" = "S" from by decide])

end Configor
